import Mathlib

/-!
Verification development for the weatherchaser CAT-event pipeline.

The Python sources are shallowly embedded as executable Lean definitions:
pure functions become Lean functions, the day-keyed Python dicts become
association lists, shapely geometry is modelled extensionally (a polygon is
the finite set of points its exact containment test accepts), exceptions
become `Option` results, and Python's stable `list.sort` is modelled by a
stable insertion sort.
-/

namespace WeatherChaser

/-- A representative point (shapely Point in config.py), as integer coordinates. -/
abbrev Point := Int × Int

/-- One single-part polygon.  Exact point-in-polygon containment
(`Point.within`) is modelled extensionally by the finite set of points the
polygon contains. -/
structure Poly where
  pts : List Point
deriving DecidableEq

/-- config.RiskPolygon.  `geometry` is the list of single-polygon parts:
geo.matcher.match_counties expands a MultiPolygon into its parts before
querying, and wraps a plain Polygon into a one-element list. -/
structure RiskPolygon where
  geometry : List Poly
  day : Nat
  outlook_type : String
  label : String
  risk_level : Nat
  stroke : String
  fill : String
  significant : Bool
deriving DecidableEq

/-- config.County. -/
structure County where
  fips : String
  name : String
  state_fips : String
  state_abbr : String
  centroid : Point
deriving DecidableEq

/-- config.CountyRisk. -/
structure CountyRisk where
  county : County
  day : Nat
  categorical_level : Nat
  hail_prob : Nat
  tornado_prob : Nat
  wind_prob : Nat
  significant : Bool
deriving DecidableEq

/-- The dataclass defaults of config.CountyRisk (`CountyRisk(county=..., day=...)`). -/
def CountyRisk.init (c : County) (d : Nat) : CountyRisk :=
  ⟨c, d, 0, 0, 0, 0, false⟩

/-- Value type of the geo.matcher.aggregate_by_state summaries
(`{"count": ..., "highest_risk": ..., "counties": ...}`). -/
structure StateSummary where
  count : Nat
  highest_risk : Nat
  counties : List CountyRisk
deriving DecidableEq

/-- config.DayResult. -/
structure DayResult where
  day : Nat
  county_risks : List CountyRisk
  state_summaries : List (String × StateSummary)
  data_available : Bool
deriving DecidableEq

/-- config.CAT_THRESHOLDS. -/
def CAT_THRESHOLDS (k : String) : Nat :=
  if k = "spc_categorical_min" then 4
  else if k = "hail_prob_min" then 15
  else if k = "tornado_prob_min" then 5
  else if k = "wind_prob_min" then 15
  else if k = "any_severe_prob_min" then 15
  else 0

/-- Stable ordered insert: `a` is placed before the first element `b` with
`le a b`, so elements already in the list that compare equal to `a` stay
behind it. -/
def insertOrd (le : α → α → Bool) (a : α) : List α → List α
  | [] => [a]
  | b :: l => if le a b then a :: b :: l else b :: insertOrd le a l

/-- Stable sort by the Boolean comparator `le`, modelling Python's stable
`list.sort`. -/
def sortWith (le : α → α → Bool) : List α → List α
  | [] => []
  | a :: l => insertOrd le a (sortWith le l)

/-- Boolean `≤` on `Nat` (ascending sort key). -/
def natLe (a b : Nat) : Bool := decide (a ≤ b)

/-- Boolean `≤` on `String` (Python's sorted() over state keys). -/
def strLe (a b : String) : Bool := decide (a ≤ b)

/-- Python's `max(...)` over a list of naturals, with `0` for the empty list
(the sources only apply it to non-empty lists or guard with `if risks else 0`). -/
def maxNat (l : List Nat) : Nat := l.foldl max 0

/-! ## geo/matcher.py -/

/-- The exact containment check `county.centroid.within(poly)`. -/
def withinPt (p : Point) (g : Poly) : Bool := g.pts.contains p

/-- geo.matcher._merge_risk, as a function returning the merged record. -/
def merge_risk (existing : CountyRisk) (p : RiskPolygon) : CountyRisk :=
  if p.significant then { existing with significant := true }
  else if p.outlook_type = "categorical" then
    { existing with categorical_level := max existing.categorical_level p.risk_level }
  else if p.outlook_type = "hail" then
    { existing with hail_prob := max existing.hail_prob p.risk_level }
  else if p.outlook_type = "tornado" then
    { existing with tornado_prob := max existing.tornado_prob p.risk_level }
  else if p.outlook_type = "wind" then
    { existing with wind_prob := max existing.wind_prob p.risk_level }
  else if p.outlook_type = "probabilistic" then
    { existing with hail_prob := max existing.hail_prob p.risk_level,
                    wind_prob := max existing.wind_prob p.risk_level }
  else existing

/-- The `day_risks` dict update of geo.matcher.match_counties: create the
record on first hit (`CountyRisk(county=county, day=day)`), then merge the
polygon into it.  `day_risks` is an insertion-ordered association list keyed
by FIPS, like the Python dict. -/
def updateRisk (acc : List (String × CountyRisk)) (county : County) (day : Nat)
    (rp : RiskPolygon) : List (String × CountyRisk) :=
  if (acc.lookup county.fips).isSome then
    acc.map (fun e => if e.1 = county.fips then (e.1, merge_risk e.2 rp) else e)
  else
    acc ++ [(county.fips, merge_risk (CountyRisk.init county day) rp)]

/-- The loop over STRtree hit indices: each candidate is confirmed with the
exact containment test before the risk is created or merged.  Out-of-range
indices (which the source's spatial index never produces) are skipped. -/
def processHits (counties : List County) (day : Nat) (rp : RiskPolygon) (g : Poly)
    (acc : List (String × CountyRisk)) (idxs : List Nat) : List (String × CountyRisk) :=
  idxs.foldl (fun acc2 idx =>
    match counties[idx]? with
    | none => acc2
    | some county =>
      if withinPt county.centroid g then updateRisk acc2 county day rp else acc2) acc

/-- One sub-polygon of a risk polygon.  `tree.query(poly)` is modelled by the
parameter `q`; a `GEOSException` raised by the query is modelled by `q`
returning `none`, in which case the part is skipped (`continue`). -/
def processPart (q : Poly → Option (List Nat)) (counties : List County) (day : Nat)
    (rp : RiskPolygon) (acc : List (String × CountyRisk)) (g : Poly) :
    List (String × CountyRisk) :=
  match q g with
  | none => acc
  | some idxs => processHits counties day rp g acc idxs

/-- One risk polygon: its parts are processed in order. -/
def processPolygon (q : Poly → Option (List Nat)) (counties : List County) (day : Nat)
    (acc : List (String × CountyRisk)) (rp : RiskPolygon) : List (String × CountyRisk) :=
  rp.geometry.foldl (processPart q counties day rp) acc

/-- geo.matcher.match_counties, one day of the loop: a day with no polygons
yields the empty list immediately, otherwise the polygons are folded into the
`day_risks` dict whose values are returned in insertion order. -/
def matchDay (q : Poly → Option (List Nat)) (counties : List County) (day : Nat)
    (polys : List RiskPolygon) : List CountyRisk :=
  if polys = [] then []
  else (polys.foldl (processPolygon q counties day) []).map Prod.snd

/-- geo.matcher.match_counties over the day-keyed outlook dict (an association
list; days are visited in sorted order as in `for day in sorted(outlooks)`). -/
def match_counties (q : Poly → Option (List Nat)) (outlooks : List (Nat × List RiskPolygon))
    (counties : List County) : List (Nat × List CountyRisk) :=
  if counties = [] then []
  else (sortWith natLe (outlooks.map Prod.fst).dedup).map
    (fun d => (d, matchDay q counties d ((outlooks.lookup d).getD [])))

/-- The malformed parts of a day's polygons removed: every sub-polygon whose
spatial-index query raises (modelled by `q` returning `none`) is dropped. -/
def pruneParts (q : Poly → Option (List Nat)) (polys : List RiskPolygon) : List RiskPolygon :=
  polys.map (fun rp => { rp with geometry := rp.geometry.filter (fun g => (q g).isSome) })

/-- Descending categorical sort inside aggregate_by_state
(`sorted(risks, key=lambda r: -r.categorical_level)`). -/
def catDescLe (a b : CountyRisk) : Bool := decide (b.categorical_level ≤ a.categorical_level)

/-- geo.matcher.aggregate_by_state: group the risks by state abbreviation and
emit the summaries in sorted state order. -/
def aggregate_by_state (county_risks : List CountyRisk) : List (String × StateSummary) :=
  (sortWith strLe (county_risks.map (fun cr => cr.county.state_abbr)).dedup).map
    (fun s =>
      let risks := county_risks.filter (fun cr => decide (cr.county.state_abbr = s))
      (s, ⟨risks.length, maxNat (risks.map (fun cr => cr.categorical_level)),
           sortWith catDescLe risks⟩))

/-! ## classifier.py -/

/-- classifier._meets_threshold. -/
def meets_threshold (risk : CountyRisk) (categorical_min : Option Nat) : Bool :=
  if risk.significant then true
  else
    let cat_min := match categorical_min with
      | some v => v
      | none => CAT_THRESHOLDS "spc_categorical_min"
    if cat_min ≤ risk.categorical_level then true
    else if CAT_THRESHOLDS "hail_prob_min" ≤ risk.hail_prob then true
    else if CAT_THRESHOLDS "tornado_prob_min" ≤ risk.tornado_prob then true
    else if CAT_THRESHOLDS "wind_prob_min" ≤ risk.wind_prob then true
    else false

/-- `int(significant)`. -/
def sigVal (b : Bool) : Nat := if b then 1 else 0

/-- The descending classifier sort: the Python key
`(-cat, -hail, -torn, -wind, -int(significant))` sorted ascending equals this
lexicographic comparator. -/
def rankLe (a b : CountyRisk) : Bool :=
  if a.categorical_level ≠ b.categorical_level then
    decide (b.categorical_level < a.categorical_level)
  else if a.hail_prob ≠ b.hail_prob then decide (b.hail_prob < a.hail_prob)
  else if a.tornado_prob ≠ b.tornado_prob then decide (b.tornado_prob < a.tornado_prob)
  else if a.wind_prob ≠ b.wind_prob then decide (b.wind_prob < a.wind_prob)
  else decide (sigVal b.significant ≤ sigVal a.significant)

/-- classifier.classify, the body of the per-day loop. -/
def classifyDay (day : Nat) (county_risks : List CountyRisk) (data_available : Bool)
    (categorical_min : Option Nat) : DayResult :=
  let flagged := sortWith rankLe
    (county_risks.filter (fun cr => meets_threshold cr categorical_min))
  ⟨day, flagged, if flagged.isEmpty then [] else aggregate_by_state flagged, data_available⟩

/-- classifier.classify (`for day in sorted(matched)` over the day-keyed dict). -/
def classify (matched : List (Nat × List CountyRisk)) (data_available : Bool)
    (categorical_min : Option Nat) : List DayResult :=
  (sortWith natLe (matched.map Prod.fst).dedup).map
    (fun d => classifyDay d ((matched.lookup d).getD []) data_available categorical_min)

/-! ## markets.py -/

/-- config.Market. -/
structure Market where
  name : String
  short_name : String
  fips_codes : List String
  states : List String
  owner : String
  zip_code : String
deriving DecidableEq

/-- markets.MarketResult. -/
structure MarketResult where
  market : Market
  day : Nat
  highest_risk : Nat
  affected_counties : Nat
  total_counties : Nat
  max_hail : Nat
  max_tornado : Nat
  max_wind : Nat
  significant : Bool
  county_risks : List CountyRisk
deriving DecidableEq

/-- The `fips_to_risk` dict of markets.classify_markets (later county risks
with the same FIPS overwrite earlier ones). -/
def fipsToRisk (crs : List CountyRisk) (f : String) : Option CountyRisk :=
  crs.reverse.find? (fun cr => decide (cr.county.fips = f))

/-- `matched = [fips_to_risk[f] for f in fips_set if f in fips_to_risk]`.
Python iterates the *set* of the market's FIPS codes; `dedup` fixes one
iteration order for it. -/
def marketMatched (dr : DayResult) (m : Market) : List CountyRisk :=
  m.fips_codes.dedup.filterMap (fun f => fipsToRisk dr.county_risks f)

/-- markets.classify_markets, the per-day inner loop over markets. -/
def marketsForDay (markets : List Market) (dr : DayResult) : List MarketResult :=
  markets.filterMap (fun m =>
    let matched := marketMatched dr m
    if matched.isEmpty then none
    else some ⟨m, dr.day, maxNat (matched.map (fun cr => cr.categorical_level)),
               matched.length, m.fips_codes.length,
               maxNat (matched.map (fun cr => cr.hail_prob)),
               maxNat (matched.map (fun cr => cr.tornado_prob)),
               maxNat (matched.map (fun cr => cr.wind_prob)),
               matched.any (fun cr => cr.significant), matched⟩)

/-- markets.classify_markets. -/
def classify_markets (results : List DayResult) (markets : List Market) :
    List (Nat × List MarketResult) :=
  results.map (fun dr => (dr.day, marketsForDay markets dr))

/-! ## demand.py -/

/-- config.DEMAND_WINDOW_START_DAYS. -/
def DEMAND_WINDOW_START_DAYS : Int := 14

/-- config.DEMAND_WINDOW_END_DAYS. -/
def DEMAND_WINDOW_END_DAYS : Int := 28

/-- demand.DemandWindow.  Dates are modelled as integer day numbers, so
`date + timedelta(days=n)` becomes integer addition. -/
structure DemandWindow where
  market : Market
  storm_date : Int
  window_start : Int
  window_end : Int
  trigger_day : Nat
  highest_risk : Nat
  confirmed : Bool
deriving DecidableEq

/-- The flattened `(day, MarketResult)` pairs of demand.compute_windows, in
dict-iteration order. -/
def marketDayPairs (market_results : List (Nat × List MarketResult)) :
    List (Nat × MarketResult) :=
  market_results.flatMap (fun p => p.2.map (fun mr => (p.1, mr)))

/-- `day_results.sort(key=lambda x: x[0])`. -/
def dayLe (a b : Nat × MarketResult) : Bool := decide (a.1 ≤ b.1)

/-- demand.compute_windows, the per-market body: collect the market's
`(day, MarketResult)` entries, sort by day, anchor on the first day. -/
def windowFor (pairs : List (Nat × MarketResult)) (scan_date : Int) (key : String) :
    Option DemandWindow :=
  let day_results := sortWith dayLe
    (pairs.filter (fun p => decide (p.2.market.short_name = key)))
  match day_results with
  | [] => none
  | (first_day, first_mr) :: _ =>
    let storm_date_cal := scan_date + ((first_day : Int) - 1)
    some ⟨first_mr.market, storm_date_cal,
          storm_date_cal + DEMAND_WINDOW_START_DAYS,
          storm_date_cal + DEMAND_WINDOW_END_DAYS,
          first_day,
          maxNat (day_results.map (fun p => p.2.highest_risk)),
          false⟩

/-- `windows.sort(key=lambda w: (w.storm_date, w.market.short_name))`. -/
def windowLe (a b : DemandWindow) : Bool :=
  if a.storm_date ≠ b.storm_date then decide (a.storm_date < b.storm_date)
  else decide (a.market.short_name ≤ b.market.short_name)

/-- demand.compute_windows.  The Python grouping dict keyed by market short
name is modelled by deduplicating the key list and filtering the pairs per
key. -/
def compute_windows (market_results : List (Nat × List MarketResult)) (scan_date : Int) :
    List DemandWindow :=
  let pairs := marketDayPairs market_results
  sortWith windowLe
    (((pairs.map (fun p => p.2.market.short_name)).dedup).filterMap
      (windowFor pairs scan_date))

/-! ## sources/spc.py -/

/-- sources.spc.fetch_spc_outlooks.  Each element of `fetches` is one SPC URL
outcome in SPC_URLS order: the day it belongs to, and `none` when the fetch
failed (404 / HTTP error / timeout / bad JSON) or `some polys` with the parsed
risk polygons (the empty list models the empty-features case, which still
counts as a success).  Returns the day-1..8 outlook map and `any_data`. -/
def fetch_spc_outlooks (fetches : List (Nat × Option (List RiskPolygon))) :
    List (Nat × List RiskPolygon) × Bool :=
  ((List.range 8).map (fun i =>
      (i + 1, fetches.flatMap (fun p => if p.1 = i + 1 then p.2.getD [] else []))),
    decide (0 < (fetches.filter (fun p => p.2.isSome)).length))

/-! ## sources/nws_alerts.py -/

/-- sources.nws_alerts.NWSAlert. -/
structure NWSAlert where
  event : String
  headline : Option String
  severity : String
  urgency : String
  certainty : String
  area_desc : String
  onset : Option String
  expires : Option String
deriving DecidableEq

/-- Python's substring containment (`pat in s`). -/
def strContainsSub (s pat : String) : Bool :=
  (List.range (s.data.length + 1)).any (fun i => pat.data.isPrefixOf (s.data.drop i))

/-- sources.nws_alerts.has_confirmed_warnings. -/
def has_confirmed_warnings (alerts : List NWSAlert) : Bool :=
  alerts.any (fun a => decide (a.certainty = "Observed") || strContainsSub a.event "Warning")

/-! ## output/slack.py -/

/-- output.slack._ALERT_LEVELS (`.get(..., 0)` is the final 0 branch). -/
def ALERT_LEVELS (s : String) : Nat :=
  if s = "heads_up" then 1
  else if s = "plan_for_it" then 2
  else if s = "it_happened" then 3
  else 0

/-- One market's entry of the persisted alert state
(`{"last_alert_type": ..., "storm_id": ...}`; the timestamp fields are not
modelled because no decision reads them). -/
structure SentRecord where
  last_alert_type : String
  storm_id : String
deriving DecidableEq

/-- The `state["markets"]` mapping of output.slack. -/
abbrev AlertState := String → Option SentRecord

/-- output.slack._should_send. -/
def should_send (market_name alert_type storm_id : String) (state : AlertState) : Bool :=
  match state market_name with
  | none => true
  | some prev =>
    if prev.storm_id ≠ storm_id then true
    else decide (ALERT_LEVELS prev.last_alert_type < ALERT_LEVELS alert_type)

/-- output.slack._record_sent. -/
def record_sent (market_name alert_type storm_id : String) (state : AlertState) :
    AlertState :=
  fun m => if m = market_name then some ⟨alert_type, storm_id⟩ else state m

/-- One candidate alert evaluated by post_alerts: the market short name, the
trigger type, and the episode id `f"{scan_date}-day{day}"`. -/
structure Candidate where
  market : String
  alert_type : String
  storm_id : String
deriving DecidableEq

/-- The send gate plus record step of post_alerts for one candidate whose
message delivery succeeds. -/
def engineStep (st : AlertState) (c : Candidate) : AlertState × Bool :=
  if should_send c.market c.alert_type c.storm_id st then
    (record_sent c.market c.alert_type c.storm_id st, true)
  else (st, false)

/-- post_alerts' evaluation loop over the candidate alerts (in day order),
returning the final persisted state and the list of sent alerts. -/
def engineRun (st : AlertState) : List Candidate → AlertState × List Candidate
  | [] => (st, [])
  | c :: rest =>
    let step := engineStep st c
    let r := engineRun step.1 rest
    (r.1, if step.2 then c :: r.2 else r.2)

/-- post_alerts' trigger-type decision for one market-day
(`if day == 1 and has_confirmed_warnings(...) ... elif ... elif ...`). -/
def triggerType (day : Nat) (highest_risk : Nat) (alerts : List NWSAlert) : Option String :=
  if day = 1 ∧ has_confirmed_warnings alerts = true then some "it_happened"
  else if day ≤ 3 ∧ 4 ≤ highest_risk then some "plan_for_it"
  else if 4 ≤ day ∧ 3 ≤ highest_risk then some "heads_up"
  else none

/-- A market's persisted record viewed as a virtual previous send. -/
def recList (st : AlertState) (m : String) : List Candidate :=
  match st m with
  | none => []
  | some r => [⟨m, r.last_alert_type, r.storm_id⟩]

/-- The sends of an engine run that belong to market `m`. -/
def sendsFor (st : AlertState) (cs : List Candidate) (m : String) : List Candidate :=
  (engineRun st cs).2.filter (fun c => decide (c.market = m))

/-- Strict escalation between two successive sends: if they carry the same
episode id, the later one has a strictly higher level. -/
def escStep (x y : Candidate) : Prop :=
  y.storm_id = x.storm_id → ALERT_LEVELS x.alert_type < ALERT_LEVELS y.alert_type

/-- The engine state with no prior record for any market. -/
def emptyState : AlertState := fun _ => none

/-! ## Demonstration data used by witnesses and counterexamples -/

/-- A Tarrant County record (FIPS 48439), centroid at the origin. -/
def demoCounty : County := ⟨"48439", "Tarrant", "48", "TX", (0, 0)⟩

/-- A second county whose centroid lies at (5, 5). -/
def demoCounty2 : County := ⟨"48113", "Dallas", "48", "TX", (5, 5)⟩

/-- A merged county risk: ENH-level categorical with hail 30. -/
def demoRisk : CountyRisk := ⟨demoCounty, 1, 5, 30, 10, 40, false⟩

/-- The DFW market restricted to two member counties. -/
def demoMarket : Market :=
  ⟨"Dallas-Fort Worth", "DFW", ["48439", "48113"], ["TX"], "Bryan", "75201"⟩

/-- A market none of whose member counties is flagged in the demo data. -/
def demoMarketQuiet : Market := ⟨"Phoenix", "PHX", ["04013", "04021"], ["AZ"], "", "85001"⟩

/-- A classified day: one flagged county in TX. -/
def demoDayResult : DayResult := ⟨1, [demoRisk], [("TX", ⟨1, 5, [demoRisk]⟩)], true⟩

/-- A market result for the demo market on day 1. -/
def demoMR : MarketResult := ⟨demoMarket, 1, 5, 1, 2, 30, 10, 40, false, [demoRisk]⟩

/-- The demo market at risk on day 1 and again on day 3. -/
def demoMRs : List (Nat × List MarketResult) := [(1, [demoMR]), (3, [demoMR])]

/-- A query function modelling an STRtree over two county centroids that
returns both candidate indices for every polygon. -/
def demoQ2 : Poly → Option (List Nat) := fun _ => some [0, 1]

/-- A query function for a day whose polygons are all empty. -/
def demoQ : Poly → Option (List Nat) := fun _ => some []

/-- A categorical ENH polygon part containing only the point (5, 5). -/
def demoPoly : Poly := ⟨[(5, 5)]⟩

/-- A categorical risk polygon whose only part is `demoPoly`. -/
def demoRP : RiskPolygon := ⟨[demoPoly], 1, "categorical", "ENH", 4, "", "", false⟩

/-- A one-day outlook catalog holding just `demoRP`. -/
def demoOutlooks : List (Nat × List RiskPolygon) := [(1, [demoRP])]

/-- SPC fetch outcomes where every day-5 fetch failed but day 1 succeeded. -/
def demoFetches : List (Nat × Option (List RiskPolygon)) :=
  [(1, some []), (2, some []), (3, some []), (4, some []), (5, none),
   (6, some []), (7, some []), (8, some [])]

/-- The escalation trace refuting claim C3 as stated: an it_happened send for
episode day1, then a heads_up send for episode day4 (which overwrites the
market's record), then a plan_for_it candidate for episode day1 again. -/
def demoTrace : List Candidate :=
  [⟨"DFW", "it_happened", "2026-10-12-day1"⟩,
   ⟨"DFW", "heads_up", "2026-10-12-day4"⟩,
   ⟨"DFW", "plan_for_it", "2026-10-12-day1"⟩]

/-! ## Helper lemmas about the stable sort -/

theorem insertOrd_perm (le : α → α → Bool) (a : α) (l : List α) :
    (insertOrd le a l).Perm (a :: l) := by
  induction l with
  | nil => simp [insertOrd]
  | cons b l ih =>
    simp only [insertOrd]
    split
    · exact List.Perm.refl _
    · exact (ih.cons b).trans (List.Perm.swap a b l)

theorem sortWith_perm (le : α → α → Bool) (l : List α) : (sortWith le l).Perm l := by
  induction l with
  | nil => simp [sortWith]
  | cons a l ih => exact (insertOrd_perm le a (sortWith le l)).trans (ih.cons a)

theorem mem_sortWith {le : α → α → Bool} {l : List α} {x : α} :
    x ∈ sortWith le l ↔ x ∈ l := (sortWith_perm le l).mem_iff

theorem pairwise_insertOrd {le : α → α → Bool}
    (htrans : ∀ a b c, le a b = true → le b c = true → le a c = true)
    (htotal : ∀ a b, le a b = true ∨ le b a = true)
    {l : List α} (a : α) (h : l.Pairwise (fun x y => le x y = true)) :
    (insertOrd le a l).Pairwise (fun x y => le x y = true) := by
  induction l with
  | nil => simp [insertOrd]
  | cons b l ih =>
    rw [List.pairwise_cons] at h
    obtain ⟨hb, hl⟩ := h
    simp only [insertOrd]
    split
    case isTrue hab =>
      rw [List.pairwise_cons]
      refine ⟨?_, List.pairwise_cons.mpr ⟨hb, hl⟩⟩
      intro y hy
      rcases List.mem_cons.mp hy with rfl | hy
      · exact hab
      · exact htrans a b y hab (hb y hy)
    case isFalse hab =>
      rw [List.pairwise_cons]
      refine ⟨?_, ih hl⟩
      intro y hy
      have hy2 := (insertOrd_perm le a l).mem_iff.mp hy
      rcases List.mem_cons.mp hy2 with h2 | h2
      · rw [h2]
        rcases htotal a b with h1 | h1
        · exact absurd h1 hab
        · exact h1
      · exact hb y h2

theorem pairwise_sortWith {le : α → α → Bool}
    (htrans : ∀ a b c, le a b = true → le b c = true → le a c = true)
    (htotal : ∀ a b, le a b = true ∨ le b a = true) (l : List α) :
    (sortWith le l).Pairwise (fun x y => le x y = true) := by
  induction l with
  | nil => simp [sortWith]
  | cons a l ih => exact pairwise_insertOrd htrans htotal a ih

theorem sortWith_head_le {le : α → α → Bool}
    (htrans : ∀ a b c, le a b = true → le b c = true → le a c = true)
    (htotal : ∀ a b, le a b = true ∨ le b a = true)
    {l : List α} {a : α} {rest : List α} (h : sortWith le l = a :: rest) :
    ∀ x ∈ l, le a x = true := by
  intro x hx
  have hx2 : x ∈ a :: rest := h ▸ (mem_sortWith.mpr hx)
  rcases List.mem_cons.mp hx2 with h2 | h2
  · rw [h2]
    rcases htotal a a with h1 | h1 <;> exact h1
  · have hp := pairwise_sortWith htrans htotal l
    rw [h, List.pairwise_cons] at hp
    exact hp.1 x h2

/-! ## Helper lemmas about merge_risk -/

theorem CountyRisk.eq_of_fields {a b : CountyRisk} (h1 : a.county = b.county)
    (h2 : a.day = b.day) (h3 : a.categorical_level = b.categorical_level)
    (h4 : a.hail_prob = b.hail_prob) (h5 : a.tornado_prob = b.tornado_prob)
    (h6 : a.wind_prob = b.wind_prob) (h7 : a.significant = b.significant) : a = b := by
  cases a; cases b; simp_all

theorem merge_county (r : CountyRisk) (p : RiskPolygon) :
    (merge_risk r p).county = r.county := by
  unfold merge_risk; split_ifs <;> rfl

theorem merge_day (r : CountyRisk) (p : RiskPolygon) :
    (merge_risk r p).day = r.day := by
  unfold merge_risk; split_ifs <;> rfl

theorem merge_cat (r : CountyRisk) (p : RiskPolygon) :
    (merge_risk r p).categorical_level =
      if p.significant = false ∧ p.outlook_type = "categorical" then
        max r.categorical_level p.risk_level
      else r.categorical_level := by
  unfold merge_risk; split_ifs <;> simp_all

theorem merge_hail (r : CountyRisk) (p : RiskPolygon) :
    (merge_risk r p).hail_prob =
      if p.significant = false ∧
          (p.outlook_type = "hail" ∨ p.outlook_type = "probabilistic") then
        max r.hail_prob p.risk_level
      else r.hail_prob := by
  unfold merge_risk; split_ifs <;> simp_all

theorem merge_torn (r : CountyRisk) (p : RiskPolygon) :
    (merge_risk r p).tornado_prob =
      if p.significant = false ∧ p.outlook_type = "tornado" then
        max r.tornado_prob p.risk_level
      else r.tornado_prob := by
  unfold merge_risk; split_ifs <;> simp_all

theorem merge_wind (r : CountyRisk) (p : RiskPolygon) :
    (merge_risk r p).wind_prob =
      if p.significant = false ∧
          (p.outlook_type = "wind" ∨ p.outlook_type = "probabilistic") then
        max r.wind_prob p.risk_level
      else r.wind_prob := by
  unfold merge_risk; split_ifs <;> simp_all

theorem merge_sig (r : CountyRisk) (p : RiskPolygon) :
    (merge_risk r p).significant = (r.significant || p.significant) := by
  unfold merge_risk; split_ifs <;> simp_all

theorem merge_risk_idem (r : CountyRisk) (p : RiskPolygon) :
    merge_risk (merge_risk r p) p = merge_risk r p := by
  apply CountyRisk.eq_of_fields <;>
    simp only [merge_county, merge_day, merge_cat, merge_hail, merge_torn,
      merge_wind, merge_sig]
  case h7 => simp [Bool.or_assoc, Bool.or_self]
  all_goals split_ifs <;> first | rfl | rw [max_assoc, max_self]

theorem merge_risk_comm (r : CountyRisk) (p q : RiskPolygon) :
    merge_risk (merge_risk r p) q = merge_risk (merge_risk r q) p := by
  apply CountyRisk.eq_of_fields <;>
    simp only [merge_county, merge_day, merge_cat, merge_hail, merge_torn,
      merge_wind, merge_sig]
  case h7 => simp [Bool.or_assoc, Bool.or_comm, Bool.or_left_comm]
  all_goals split_ifs <;> first | rfl | exact sup_right_comm _ _ _

theorem foldl_merge_risk_perm {l₁ l₂ : List RiskPolygon} (h : l₁.Perm l₂) :
    ∀ r : CountyRisk, l₁.foldl merge_risk r = l₂.foldl merge_risk r := by
  induction h with
  | nil => intro r; rfl
  | cons x _ ih => intro r; simp only [List.foldl_cons]; exact ih _
  | swap x y l => intro r; simp only [List.foldl_cons]; rw [merge_risk_comm]
  | trans _ _ ih1 ih2 => intro r; rw [ih1, ih2]

/-! ## Claim theorems -/

/-- Claim C2: merging polygon hits into a CountyRisk is idempotent and
commutative — applying the same hit twice equals applying it once, two hits
commute, and folding any permutation of a hit list over a record yields the
same CountyRisk (hence identical categorical level, hail/tornado/wind
probabilities and significant flag). -/
theorem merge_idempotent_commutative :
    ∀ (r : CountyRisk) (p q : RiskPolygon) (l₁ l₂ : List RiskPolygon),
      merge_risk (merge_risk r p) p = merge_risk r p ∧
      merge_risk (merge_risk r p) q = merge_risk (merge_risk r q) p ∧
      (l₁.Perm l₂ → l₁.foldl merge_risk r = l₂.foldl merge_risk r) :=
  fun r p q _ _ =>
    ⟨merge_risk_idem r p, merge_risk_comm r p q, fun h => foldl_merge_risk_perm h r⟩

/-- Claim C10: every DemandWindow produced by compute_windows has
`confirmed = false`; the calculator never sets the flag. -/
theorem compute_windows_confirmed_false :
    ∀ (mrs : List (Nat × List MarketResult)) (scan : Int) (w : DemandWindow),
      w ∈ compute_windows mrs scan → w.confirmed = false := by
  intro mrs scan w hw
  unfold compute_windows at hw
  rw [mem_sortWith] at hw
  obtain ⟨k, _, hk⟩ := List.mem_filterMap.mp hw
  simp only [windowFor] at hk
  cases hdr : sortWith dayLe
      ((marketDayPairs mrs).filter fun p => decide (p.2.market.short_name = k)) with
  | nil => rw [hdr] at hk; simp at hk
  | cons hd tl =>
    obtain ⟨fd, fm⟩ := hd
    rw [hdr] at hk
    simp only [Option.some.injEq] at hk
    rw [← hk]

/-- Witness for claim C10 at a concrete two-day market-result set. -/
theorem compute_windows_confirmed_false_witness :
    (⟨demoMarket, 100, 114, 128, 1, 5, false⟩ : DemandWindow).confirmed = false :=
  compute_windows_confirmed_false demoMRs 100 _ (by decide)

/-! ## Classifier lemmas and claim C1 -/

theorem meets_threshold_iff (cr : CountyRisk) (catMin : Option Nat) :
    meets_threshold cr catMin = true ↔
      (cr.significant = true ∨ catMin.getD 4 ≤ cr.categorical_level ∨
       15 ≤ cr.hail_prob ∨ 5 ≤ cr.tornado_prob ∨ 15 ≤ cr.wind_prob) := by
  cases catMin <;>
    · simp only [meets_threshold]
      split_ifs <;> simp_all [CAT_THRESHOLDS]

theorem classifyDay_county_risks (d : Nat) (risks : List CountyRisk) (avail : Bool)
    (catMin : Option Nat) :
    (classifyDay d risks avail catMin).county_risks =
      sortWith rankLe (risks.filter (fun cr => meets_threshold cr catMin)) := rfl

/-- Claim C1: a CountyRisk of a day's merged set appears in the classifier's
flagged list iff at least one threshold predicate holds (significant flag, or
categorical level at least the configured minimum defaulting to 4, or hail at
least 15, or tornado at least 5, or wind at least 15); an empty merged set
yields an empty flagged list while the day's data-availability flag is kept. -/
theorem classify_flags_iff :
    ∀ (matched : List (Nat × List CountyRisk)) (avail : Bool) (catMin : Option Nat)
      (d : Nat) (risks : List CountyRisk) (dr : DayResult),
      matched.lookup d = some risks → dr ∈ classify matched avail catMin →
      dr.day = d →
      ((∀ cr, cr ∈ dr.county_risks ↔ cr ∈ risks ∧
          (cr.significant = true ∨ catMin.getD 4 ≤ cr.categorical_level ∨
           15 ≤ cr.hail_prob ∨ 5 ≤ cr.tornado_prob ∨ 15 ≤ cr.wind_prob)) ∧
       (risks = [] → dr.county_risks = [] ∧ dr.data_available = avail)) := by
  intro matched avail catMin d risks dr hlook hmem hday
  unfold classify at hmem
  rw [List.mem_map] at hmem
  obtain ⟨d2, _, hdr⟩ := hmem
  have hday2 : d2 = d := by rw [← hdr] at hday; exact hday
  subst hday2
  rw [hlook] at hdr
  simp only [Option.getD_some] at hdr
  subst hdr
  constructor
  · intro cr
    rw [classifyDay_county_risks, mem_sortWith, List.mem_filter,
      meets_threshold_iff]
  · intro hemp
    subst hemp
    exact ⟨rfl, rfl⟩

/-- Witness for claim C1 at a one-day, one-county input (flagged at level 5). -/
theorem classify_flags_iff_witness :
    demoRisk ∈ demoDayResult.county_risks ↔ demoRisk ∈ [demoRisk] ∧
      (demoRisk.significant = true ∨ (none : Option Nat).getD 4 ≤ demoRisk.categorical_level ∨
       15 ≤ demoRisk.hail_prob ∨ 5 ≤ demoRisk.tornado_prob ∨ 15 ≤ demoRisk.wind_prob) :=
  (classify_flags_iff [(1, [demoRisk])] true none 1 [demoRisk] demoDayResult
    (by decide) (by decide) rfl).1 demoRisk

/-! ## Claim C4 -/

/-- Claim C4: triggers are decided in fixed priority order with first match
winning — confirmed-warning evidence on day 1 gives it_happened; otherwise
day at most 3 with categorical level at least 4 gives plan_for_it; otherwise
day at least 4 with level at least 3 gives heads_up; otherwise no trigger.
Confirmed-warning evidence means some alert with Observed certainty or a
Warning-class event. -/
theorem trigger_priority :
    ∀ (day risk : Nat) (alerts : List NWSAlert),
      (triggerType day risk alerts = some "it_happened" ↔
        day = 1 ∧ has_confirmed_warnings alerts = true) ∧
      (triggerType day risk alerts = some "plan_for_it" ↔
        ¬(day = 1 ∧ has_confirmed_warnings alerts = true) ∧ day ≤ 3 ∧ 4 ≤ risk) ∧
      (triggerType day risk alerts = some "heads_up" ↔
        ¬(day = 1 ∧ has_confirmed_warnings alerts = true) ∧
        ¬(day ≤ 3 ∧ 4 ≤ risk) ∧ 4 ≤ day ∧ 3 ≤ risk) ∧
      (triggerType day risk alerts = none ↔
        ¬(day = 1 ∧ has_confirmed_warnings alerts = true) ∧
        ¬(day ≤ 3 ∧ 4 ≤ risk) ∧ ¬(4 ≤ day ∧ 3 ≤ risk)) ∧
      (has_confirmed_warnings alerts = true ↔
        ∃ a ∈ alerts, a.certainty = "Observed" ∨ strContainsSub a.event "Warning" = true) := by
  intro day risk alerts
  have hconf : has_confirmed_warnings alerts = true ↔
      ∃ a ∈ alerts, a.certainty = "Observed" ∨ strContainsSub a.event "Warning" = true := by
    simp [has_confirmed_warnings, List.any_eq_true, Bool.or_eq_true, decide_eq_true_eq]
  have hne1 : ("it_happened" : String) ≠ "plan_for_it" := by decide
  have hne2 : ("it_happened" : String) ≠ "heads_up" := by decide
  have hne3 : ("plan_for_it" : String) ≠ "heads_up" := by decide
  refine ⟨?_, ?_, ?_, ?_, hconf⟩ <;>
    · unfold triggerType
      split_ifs with h1 h2 h3 <;> simp_all

/-! ## Market lemmas and claim C5 -/

theorem marketMatched_sub {dr : DayResult} {m : Market} {cr : CountyRisk}
    (h : cr ∈ marketMatched dr m) :
    cr ∈ dr.county_risks ∧ cr.county.fips ∈ m.fips_codes := by
  obtain ⟨f, hf, hfr⟩ := List.mem_filterMap.mp h
  have h1 := List.find?_some hfr
  have h2 := List.mem_of_find?_eq_some hfr
  rw [List.mem_reverse] at h2
  rw [decide_eq_true_eq] at h1
  rw [List.mem_dedup] at hf
  exact ⟨h2, h1 ▸ hf⟩

theorem marketsForDay_mem {markets : List Market} {dr : DayResult} {mr : MarketResult}
    (h : mr ∈ marketsForDay markets dr) :
    ∃ m ∈ markets, marketMatched dr m ≠ [] ∧ mr.market = m ∧
      mr.affected_counties = (marketMatched dr m).length := by
  unfold marketsForDay at h
  obtain ⟨m, hm, hsome⟩ := List.mem_filterMap.mp h
  simp only at hsome
  split at hsome
  case isTrue he =>
    exact absurd hsome (by simp)
  case isFalse hne =>
    injection hsome with h2
    refine ⟨m, hm, ?_, ?_, ?_⟩
    · intro hemp
      rw [hemp] at hne
      exact hne rfl
    · rw [← h2]
    · rw [← h2]

/-- Claim C5: a market whose member-county identifiers do not intersect a
day's flagged counties is absent from that day's MarketResult list, and every
MarketResult present has at least one affected county. -/
theorem markets_sparsity :
    ∀ (results : List DayResult) (markets : List Market) (dr : DayResult),
      dr ∈ results →
      ((dr.day, marketsForDay markets dr) ∈ classify_markets results markets ∧
       (∀ m ∈ markets, (∀ cr ∈ dr.county_risks, cr.county.fips ∉ m.fips_codes) →
          ∀ mr ∈ marketsForDay markets dr, ¬ mr.market = m) ∧
       (∀ p ∈ classify_markets results markets, ∀ mr ∈ p.2,
          1 ≤ mr.affected_counties)) := by
  intro results markets dr hdr
  refine ⟨?_, ?_, ?_⟩
  · exact List.mem_map.mpr ⟨dr, hdr, rfl⟩
  · intro m _ hempty mr hmr heq
    obtain ⟨m2, _, hne, hmkt, _⟩ := marketsForDay_mem hmr
    have hm2 : m2 = m := by rw [← hmkt]; exact heq
    rw [hm2] at hne
    rcases hx : marketMatched dr m with _ | ⟨cr, rest⟩
    · exact hne hx
    · have hcr : cr ∈ marketMatched dr m := by
        rw [hx]; exact List.mem_cons_self cr rest
      obtain ⟨hin, hfips⟩ := marketMatched_sub hcr
      exact hempty cr hin hfips
  · intro p hp mr hmr
    obtain ⟨dr2, _, hpd⟩ := List.mem_map.mp hp
    rw [← hpd] at hmr
    obtain ⟨m, _, hne, _, hlen⟩ := marketsForDay_mem hmr
    rw [hlen]
    rcases hx : marketMatched dr2 m with _ | ⟨cr, rest⟩
    · exact absurd hx hne
    · simp [hx]

/-- Witness for claim C5: the quiet market does not own the demo result. -/
theorem markets_sparsity_witness : ¬ demoMR.market = demoMarketQuiet :=
  (markets_sparsity [demoDayResult] [demoMarket, demoMarketQuiet] demoDayResult
    (by decide)).2.1 demoMarketQuiet (by decide) (by decide) demoMR (by decide)

/-! ## Matcher lemmas and claims C7, C8 -/

theorem updateRisk_mem {acc : List (String × CountyRisk)} {county : County} {day : Nat}
    {rp : RiskPolygon} {e : String × CountyRisk} (he : e ∈ updateRisk acc county day rp) :
    (∃ e0 ∈ acc, e.2.county = e0.2.county) ∨ e.2.county = county := by
  unfold updateRisk at he
  split at he
  · obtain ⟨e0, he0, heq⟩ := List.mem_map.mp he
    by_cases h : e0.1 = county.fips
    · rw [if_pos h] at heq
      left
      exact ⟨e0, he0, by rw [← heq]; exact merge_county e0.2 rp⟩
    · rw [if_neg h] at heq
      left
      exact ⟨e0, he0, by rw [← heq]⟩
  · rw [List.mem_append] at he
    rcases he with he | he
    · left; exact ⟨e, he, rfl⟩
    · right
      have heq : e = (county.fips, merge_risk (CountyRisk.init county day) rp) := by
        simpa using he
      rw [heq]
      exact merge_county (CountyRisk.init county day) rp

theorem processHits_inv {counties : List County} {day : Nat}
    {rp : RiskPolygon} {g : Poly} {c : County}
    (hg : withinPt c.centroid g = false) :
    ∀ (idxs : List Nat) (acc : List (String × CountyRisk)),
      (∀ e ∈ acc, ¬ e.2.county = c) →
      ∀ e ∈ processHits counties day rp g acc idxs, ¬ e.2.county = c := by
  intro idxs
  induction idxs with
  | nil => intro acc hacc; exact hacc
  | cons i rest ih =>
    intro acc hacc
    have hstep : processHits counties day rp g acc (i :: rest) =
        processHits counties day rp g
          (match counties[i]? with
           | none => acc
           | some county =>
             if withinPt county.centroid g then updateRisk acc county day rp
             else acc) rest := rfl
    rw [hstep]
    apply ih
    cases hidx : counties[i]? with
    | none => simpa [hidx] using hacc
    | some county =>
      simp only [hidx]
      by_cases hw : withinPt county.centroid g = true
      · rw [if_pos hw]
        intro e he
        rcases updateRisk_mem he with ⟨e0, he0, heq⟩ | heq
        · rw [heq]; exact hacc e0 he0
        · rw [heq]
          intro hcc
          rw [hcc] at hw
          rw [hw] at hg
          exact Bool.noConfusion hg
      · rw [if_neg hw]
        exact hacc

theorem foldParts_inv {q : Poly → Option (List Nat)} {counties : List County}
    {day : Nat} {rp : RiskPolygon} {c : County} :
    ∀ (gs : List Poly) (acc : List (String × CountyRisk)),
      (∀ g ∈ gs, withinPt c.centroid g = false) →
      (∀ e ∈ acc, ¬ e.2.county = c) →
      ∀ e ∈ gs.foldl (processPart q counties day rp) acc, ¬ e.2.county = c := by
  intro gs
  induction gs with
  | nil => intro acc _ hacc; exact hacc
  | cons g gs ih =>
    intro acc hgs hacc
    rw [List.foldl_cons]
    apply ih
    · intro g2 hg2; exact hgs g2 (List.mem_cons_of_mem g hg2)
    · unfold processPart
      cases hq : q g with
      | none => exact hacc
      | some idxs =>
        exact processHits_inv (hgs g (List.mem_cons_self g gs)) idxs acc hacc

theorem foldPolys_inv {q : Poly → Option (List Nat)} {counties : List County}
    {day : Nat} {c : County} :
    ∀ (polys : List RiskPolygon) (acc : List (String × CountyRisk)),
      (∀ rp ∈ polys, ∀ g ∈ rp.geometry, withinPt c.centroid g = false) →
      (∀ e ∈ acc, ¬ e.2.county = c) →
      ∀ e ∈ polys.foldl (processPolygon q counties day) acc, ¬ e.2.county = c := by
  intro polys
  induction polys with
  | nil => intro acc _ hacc; exact hacc
  | cons rp polys ih =>
    intro acc hpoly hacc
    rw [List.foldl_cons]
    apply ih
    · intro rp2 h2; exact hpoly rp2 (List.mem_cons_of_mem rp h2)
    · exact foldParts_inv rp.geometry acc (hpoly rp (List.mem_cons_self rp polys)) hacc

/-- Claim C7: if no polygon containment test succeeds for a county's
representative point on a day, the matcher's output for that day holds no
CountyRisk for that county. -/
theorem match_counties_no_hit_no_risk :
    ∀ (q : Poly → Option (List Nat)) (outlooks : List (Nat × List RiskPolygon))
      (counties : List County) (c : County) (d : Nat) (crs : List CountyRisk),
      (d, crs) ∈ match_counties q outlooks counties →
      (∀ rp ∈ (outlooks.lookup d).getD [], ∀ g ∈ rp.geometry,
        withinPt c.centroid g = false) →
      ∀ cr ∈ crs, ¬ cr.county = c := by
  intro q outlooks counties c d crs hmem hno cr hcr
  unfold match_counties at hmem
  split at hmem
  · exact absurd hmem (List.not_mem_nil _)
  · obtain ⟨d2, _, hpair⟩ := List.mem_map.mp hmem
    simp only [Prod.mk.injEq] at hpair
    obtain ⟨hd2, hcrs⟩ := hpair
    subst hd2
    rw [← hcrs] at hcr
    unfold matchDay at hcr
    split at hcr
    · exact absurd hcr (List.not_mem_nil _)
    · obtain ⟨e, he, hecr⟩ := List.mem_map.mp hcr
      rw [← hecr]
      exact foldPolys_inv _ [] hno (by intro e2 h2; exact absurd h2 (List.not_mem_nil _)) e he

/-- Witness for claim C7: the demo polygon contains only (5, 5), so the county
at the origin never acquires a risk record; the matched record belongs to the
other county. -/
theorem match_counties_no_hit_no_risk_witness :
    ¬ (⟨demoCounty2, 1, 4, 0, 0, 0, false⟩ : CountyRisk).county = demoCounty :=
  match_counties_no_hit_no_risk demoQ2 demoOutlooks [demoCounty, demoCounty2]
    demoCounty 1 [⟨demoCounty2, 1, 4, 0, 0, 0, false⟩] (by decide) (by decide)
    ⟨demoCounty2, 1, 4, 0, 0, 0, false⟩ (by decide)

theorem foldParts_prune (q : Poly → Option (List Nat)) (counties : List County)
    (day : Nat) (rp : RiskPolygon) :
    ∀ (gs : List Poly) (acc : List (String × CountyRisk)),
      (gs.filter (fun g => (q g).isSome)).foldl (processPart q counties day rp) acc =
        gs.foldl (processPart q counties day rp) acc := by
  intro gs
  induction gs with
  | nil => intro acc; rfl
  | cons g gs ih =>
    intro acc
    rw [List.filter_cons]
    by_cases hq : (q g).isSome
    · rw [if_pos hq, List.foldl_cons, List.foldl_cons]
      exact ih _
    · have hnone : q g = none := Option.not_isSome_iff_eq_none.mp hq
      rw [if_neg hq, List.foldl_cons]
      have hid : processPart q counties day rp acc g = acc := by
        simp [processPart, hnone]
      rw [hid]
      exact ih acc

theorem foldPolys_prune (q : Poly → Option (List Nat)) (counties : List County)
    (day : Nat) :
    ∀ (polys : List RiskPolygon) (acc : List (String × CountyRisk)),
      (pruneParts q polys).foldl (processPolygon q counties day) acc =
        polys.foldl (processPolygon q counties day) acc := by
  intro polys
  induction polys with
  | nil => intro acc; rfl
  | cons rp polys ih =>
    intro acc
    rw [pruneParts, List.map_cons, List.foldl_cons, List.foldl_cons]
    have hone : processPolygon q counties day acc
        { rp with geometry := rp.geometry.filter (fun g => (q g).isSome) } =
        processPolygon q counties day acc rp := by
      unfold processPolygon
      exact foldParts_prune q counties day rp rp.geometry acc
    rw [hone]
    exact ih _

/-- Claim C8: a sub-polygon whose exact-geometry query fails is skipped on its
own — matching a day equals matching the same day with the malformed parts
removed — and a day with no polygons produces an empty hit set. -/
theorem match_day_skips_malformed :
    ∀ (q : Poly → Option (List Nat)) (counties : List County) (day : Nat)
      (polys : List RiskPolygon),
      matchDay q counties day polys = matchDay q counties day (pruneParts q polys) ∧
      matchDay q counties day [] = [] := by
  intro q counties day polys
  refine ⟨?_, rfl⟩
  unfold matchDay
  by_cases hp : polys = []
  · subst hp; rfl
  · have hp2 : ¬ pruneParts q polys = [] := by
      intro h
      exact hp (List.map_eq_nil_iff.mp h)
    rw [if_neg hp, if_neg hp2, foldPolys_prune]

/-! ## Escalation-engine lemmas and claim C3 -/

theorem engineRun_cons_sent (st : AlertState) (c : Candidate) (rest : List Candidate)
    (h : should_send c.market c.alert_type c.storm_id st = true) :
    engineRun st (c :: rest) =
      ((engineRun (record_sent c.market c.alert_type c.storm_id st) rest).1,
       c :: (engineRun (record_sent c.market c.alert_type c.storm_id st) rest).2) := by
  simp [engineRun, engineStep, h]

theorem engineRun_cons_skip (st : AlertState) (c : Candidate) (rest : List Candidate)
    (h : ¬ should_send c.market c.alert_type c.storm_id st = true) :
    engineRun st (c :: rest) = engineRun st rest := by
  simp [engineRun, engineStep, h]

theorem engineRun_chain :
    ∀ (m : String) (cs : List Candidate) (st : AlertState),
      List.Chain' escStep (recList st m ++ sendsFor st cs m) := by
  intro m cs
  induction cs with
  | nil =>
    intro st
    have h0 : sendsFor st [] m = [] := rfl
    rw [h0, List.append_nil]
    cases hst : st m with
    | none => simp [recList, hst]
    | some r => simp [recList, hst]
  | cons c rest ih =>
    intro st
    by_cases hsend : should_send c.market c.alert_type c.storm_id st = true
    · have hrun := engineRun_cons_sent st c rest hsend
      by_cases hcm : c.market = m
      · have hsf : sendsFor st (c :: rest) m =
            c :: sendsFor (record_sent c.market c.alert_type c.storm_id st) rest m := by
          unfold sendsFor
          rw [hrun]
          simp [List.filter_cons, hcm]
        rw [hsf]
        have hrec : recList (record_sent c.market c.alert_type c.storm_id st) m =
            [⟨c.market, c.alert_type, c.storm_id⟩] := by
          simp [recList, record_sent, hcm]
        have ih2 := ih (record_sent c.market c.alert_type c.storm_id st)
        rw [hrec] at ih2
        have hceta : (⟨c.market, c.alert_type, c.storm_id⟩ : Candidate) = c := rfl
        rw [hceta] at ih2
        rw [List.singleton_append] at ih2
        cases hst : st m with
        | none => simpa [recList, hst] using ih2
        | some prev =>
          simp only [recList, hst, List.cons_append, List.nil_append]
          refine List.chain'_cons.mpr ⟨?_, ih2⟩
          intro hsame
          unfold should_send at hsend
          rw [hcm, hst] at hsend
          have hne : ¬ prev.storm_id ≠ c.storm_id := fun hne => hne hsame.symm
          have hsend2 : (if prev.storm_id ≠ c.storm_id then true
              else decide (ALERT_LEVELS prev.last_alert_type <
                ALERT_LEVELS c.alert_type)) = true := hsend
          rw [if_neg hne] at hsend2
          exact of_decide_eq_true hsend2
      · have hsf : sendsFor st (c :: rest) m =
            sendsFor (record_sent c.market c.alert_type c.storm_id st) rest m := by
          unfold sendsFor
          rw [hrun]
          simp [List.filter_cons, hcm]
        have hmne : ¬ m = c.market := fun h => hcm h.symm
        have hrec : recList (record_sent c.market c.alert_type c.storm_id st) m =
            recList st m := by
          simp [recList, record_sent, hmne]
        rw [hsf, ← hrec]
        exact ih (record_sent c.market c.alert_type c.storm_id st)
    · have hrun := engineRun_cons_skip st c rest hsend
      have hsf : sendsFor st (c :: rest) m = sendsFor st rest m := by
        unfold sendsFor; rw [hrun]
      rw [hsf]
      exact ih st

/-- Claim C3, amended: a send happens exactly when no record exists for the
market, or the recorded episode id differs, or the candidate level is strictly
higher than the recorded one; consequently, among a market's successive sends
(with the persisted record as virtual previous send), a send carrying the same
episode id as its immediate predecessor has a strictly higher level.  (Once a
send for a different episode overwrites the record, an equal-or-lower level
for an earlier episode may be sent again — see the counterexample.) -/
theorem alert_escalation_gate_and_chain :
    ∀ (st : AlertState) (c : Candidate) (cs : List Candidate) (m : String),
      ((engineStep st c).2 = true ↔
        st c.market = none ∨ ∃ prev, st c.market = some prev ∧
          (¬ prev.storm_id = c.storm_id ∨
           ALERT_LEVELS prev.last_alert_type < ALERT_LEVELS c.alert_type)) ∧
      List.Chain' escStep (recList st m ++ sendsFor st cs m) := by
  intro st c cs m
  refine ⟨?_, engineRun_chain m cs st⟩
  unfold engineStep should_send
  cases hst : st c.market with
  | none => simp
  | some prev =>
    split_ifs with h1 <;> simp_all

/-- Claim C3 counterexample: starting from an empty state, an it_happened send
for episode day1, then a heads_up send for episode day4, then a plan_for_it
send again for episode day1 — all three pass the gate, so an equal-or-lower
level (plan_for_it, level 2) is sent for the same market and episode id after
it_happened (level 3) was already sent and recorded for it. -/
theorem alert_escalation_counterexample :
    (engineRun emptyState demoTrace).2 = demoTrace ∧
    (engineRun emptyState demoTrace).2[0]? =
      some ⟨"DFW", "it_happened", "2026-10-12-day1"⟩ ∧
    (engineRun emptyState demoTrace).2[2]? =
      some ⟨"DFW", "plan_for_it", "2026-10-12-day1"⟩ ∧
    ALERT_LEVELS "plan_for_it" ≤ ALERT_LEVELS "it_happened" := by
  refine ⟨?_, ?_, ?_, ?_⟩ <;> decide

/-! ## Data-availability lemmas and claim C9 -/

theorem classify_data_available (matched : List (Nat × List CountyRisk)) (avail : Bool)
    (catMin : Option Nat) (dr : DayResult) (h : dr ∈ classify matched avail catMin) :
    dr.data_available = avail := by
  unfold classify at h
  rw [List.mem_map] at h
  obtain ⟨d, _, hdr⟩ := h
  rw [← hdr]
  rfl

/-- Claim C9, amended: data availability is propagated at scan granularity,
not per day — every DayResult of the run carries data_available equal to the
scan-wide any-data flag, which is false exactly when ALL upstream fetches of
the whole scan failed.  A day whose own fetches all failed still carries
data_available = true whenever any other day's fetch succeeded (see the
counterexample); a day with zero polygons and data_available = false remains
distinguishable from a clear scan with data_available = true. -/
theorem data_available_scan_global :
    ∀ (fetches : List (Nat × Option (List RiskPolygon))) (q : Poly → Option (List Nat))
      (counties : List County),
      ((fetch_spc_outlooks fetches).2 = false ↔ ∀ p ∈ fetches, p.2 = none) ∧
      (∀ (catMin : Option Nat) (dr : DayResult),
        dr ∈ classify (match_counties q (fetch_spc_outlooks fetches).1 counties)
          (fetch_spc_outlooks fetches).2 catMin →
        dr.data_available = (fetch_spc_outlooks fetches).2) := by
  intro fetches q counties
  constructor
  · show decide (0 < (fetches.filter (fun p => p.2.isSome)).length) = false ↔ _
    rw [decide_eq_false_iff_not]
    constructor
    · intro h p hp
      have hlen : (fetches.filter (fun p => p.2.isSome)).length = 0 :=
        Nat.eq_zero_of_not_pos h
      have hnil := List.length_eq_zero.mp hlen
      have h2 := List.filter_eq_nil_iff.mp hnil p hp
      simp only [Bool.not_eq_true] at h2
      exact Option.not_isSome_iff_eq_none.mp (by simp [h2])
    · intro h hpos
      have hnil : fetches.filter (fun p => p.2.isSome) = [] :=
        List.filter_eq_nil_iff.mpr (fun p hp => by rw [h p hp]; simp)
      rw [hnil] at hpos
      exact absurd hpos (by simp)
  · intro catMin dr h
    exact classify_data_available _ _ _ _ h

/-- Claim C9 counterexample: every fetch for day 5 failed while day 1
succeeded; day 5's DayResult nevertheless carries data_available = true. -/
theorem data_available_counterexample :
    demoFetches.all (fun p => (p.1 != 5) || p.2.isNone) = true ∧
    (classify (match_counties demoQ (fetch_spc_outlooks demoFetches).1 [demoCounty])
        (fetch_spc_outlooks demoFetches).2 none).find?
        (fun dr => decide (dr.day = 5)) = some ⟨5, [], [], true⟩ := by
  refine ⟨?_, ?_⟩ <;> decide

/-! ## maxNat lemmas and claim C6 -/

theorem foldl_max_le_init (l : List Nat) : ∀ a, a ≤ l.foldl max a := by
  induction l with
  | nil => intro a; exact le_refl a
  | cons b l ih => intro a; exact le_trans (le_max_left a b) (ih (max a b))

theorem le_foldl_max (l : List Nat) : ∀ a, ∀ x ∈ l, x ≤ l.foldl max a := by
  induction l with
  | nil => intro a x hx; exact absurd hx (List.not_mem_nil x)
  | cons b l ih =>
    intro a x hx
    rw [List.foldl_cons]
    rcases List.mem_cons.mp hx with h | h
    · rw [h]; exact le_trans (le_max_right a b) (foldl_max_le_init l (max a b))
    · exact ih (max a b) x h

theorem foldl_max_mem (l : List Nat) : ∀ a, l.foldl max a = a ∨ l.foldl max a ∈ l := by
  induction l with
  | nil => intro a; left; rfl
  | cons b l ih =>
    intro a
    rw [List.foldl_cons]
    rcases ih (max a b) with h | h
    · rw [h]
      rcases max_choice a b with h2 | h2
      · left; exact h2
      · right; rw [h2]; exact List.mem_cons_self b l
    · right; exact List.mem_cons_of_mem b h

theorem maxNat_le (l : List Nat) : ∀ x ∈ l, x ≤ maxNat l := le_foldl_max l 0

theorem maxNat_mem {l : List Nat} (h : l ≠ []) : maxNat l ∈ l := by
  rcases foldl_max_mem l 0 with h2 | h2
  · rcases l with _ | ⟨x, xs⟩
    · exact absurd rfl h
    · have hx : x ≤ maxNat (x :: xs) := maxNat_le _ x (List.mem_cons_self x xs)
      show maxNat (x :: xs) ∈ x :: xs
      have h0 : maxNat (x :: xs) = 0 := h2
      rw [h0] at hx ⊢
      have hx0 : x = 0 := Nat.le_zero.mp hx
      rw [← hx0]
      exact List.mem_cons_self x xs
  · exact h2

theorem dayLe_trans : ∀ a b c : Nat × MarketResult,
    dayLe a b = true → dayLe b c = true → dayLe a c = true := by
  intro a b c
  simp only [dayLe, decide_eq_true_eq]
  omega

theorem dayLe_total : ∀ a b : Nat × MarketResult,
    dayLe a b = true ∨ dayLe b a = true := by
  intro a b
  simp only [dayLe, decide_eq_true_eq]
  omega

theorem windowFor_eq_some {pairs : List (Nat × MarketResult)} {scan : Int}
    {key : String} {w : DemandWindow} (h : windowFor pairs scan key = some w) :
    ∃ fd fm tl,
      sortWith dayLe (pairs.filter (fun p => decide (p.2.market.short_name = key)))
        = (fd, fm) :: tl ∧
      w = ⟨fm.market, scan + ((fd : Int) - 1),
           scan + ((fd : Int) - 1) + DEMAND_WINDOW_START_DAYS,
           scan + ((fd : Int) - 1) + DEMAND_WINDOW_END_DAYS, fd,
           maxNat (((fd, fm) :: tl).map (fun p => p.2.highest_risk)), false⟩ := by
  simp only [windowFor] at h
  cases hdr : sortWith dayLe
      (pairs.filter fun p => decide (p.2.market.short_name = key)) with
  | nil => rw [hdr] at h; simp at h
  | cons hd tl =>
    obtain ⟨fd, fm⟩ := hd
    rw [hdr] at h
    simp only [Option.some.injEq] at h
    exact ⟨fd, fm, tl, rfl, h.symm⟩

theorem windowFor_short_name {pairs : List (Nat × MarketResult)} {scan : Int}
    {key : String} {w : DemandWindow} (h : windowFor pairs scan key = some w) :
    w.market.short_name = key := by
  obtain ⟨fd, fm, tl, hsort, hw⟩ := windowFor_eq_some h
  have hmem : (fd, fm) ∈ sortWith dayLe
      (pairs.filter (fun p => decide (p.2.market.short_name = key))) := by
    rw [hsort]; exact List.mem_cons_self _ tl
  rw [mem_sortWith, List.mem_filter] at hmem
  rw [hw]
  exact of_decide_eq_true hmem.2

theorem windowFor_none_iff {pairs : List (Nat × MarketResult)} {scan : Int}
    {key : String} :
    windowFor pairs scan key = none ↔
      pairs.filter (fun p => decide (p.2.market.short_name = key)) = [] := by
  simp only [windowFor]
  cases hdr : sortWith dayLe
      (pairs.filter fun p => decide (p.2.market.short_name = key)) with
  | nil =>
    have hperm := sortWith_perm dayLe
      (pairs.filter fun p => decide (p.2.market.short_name = key))
    rw [hdr] at hperm
    constructor
    · intro _
      exact List.eq_nil_of_length_eq_zero (hperm.length_eq.symm.trans rfl)
    · intro _; rfl
  | cons hd tl =>
    obtain ⟨fd, fm⟩ := hd
    have hperm := sortWith_perm dayLe
      (pairs.filter fun p => decide (p.2.market.short_name = key))
    rw [hdr] at hperm
    constructor
    · intro hx
      exact absurd hx (by simp)
    · intro hnil
      rw [hnil] at hperm
      exact absurd hperm.length_eq (by simp)

theorem filter_filterMap_not_mem {f : String → Option DemandWindow}
    {ks : List String} {s : String} (hnot : s ∉ ks)
    (hshort : ∀ k w, f k = some w → w.market.short_name = k) :
    (ks.filterMap f).filter (fun w => decide (w.market.short_name = s)) = [] := by
  rw [List.filter_eq_nil_iff]
  intro w hw
  obtain ⟨k, hk, hfk⟩ := List.mem_filterMap.mp hw
  have hwk := hshort k w hfk
  simp only [hwk, decide_eq_true_eq]
  intro heq
  exact hnot (heq ▸ hk)

theorem filter_filterMap_length_one {f : String → Option DemandWindow}
    {keys : List String} {s : String} (hnd : keys.Nodup) (hs : s ∈ keys)
    (hshort : ∀ k w, f k = some w → w.market.short_name = k)
    (hsome : (f s).isSome = true) :
    ((keys.filterMap f).filter (fun w => decide (w.market.short_name = s))).length
      = 1 := by
  induction keys with
  | nil => exact absurd hs (List.not_mem_nil s)
  | cons k ks ih =>
    rw [List.filterMap_cons]
    rcases List.mem_cons.mp hs with hks | hks
    · cases hfk : f k with
      | none =>
        rw [hks, hfk] at hsome
        exact absurd hsome (by simp)
      | some w =>
        have hwk : w.market.short_name = k := hshort k w hfk
        have hknot : k ∉ ks := (List.nodup_cons.mp hnd).1
        rw [List.filter_cons]
        rw [if_pos (by simp [hwk, hks])]
        rw [List.length_cons]
        rw [filter_filterMap_not_mem (hks ▸ hknot) hshort]
        rfl
    · have hkne : ¬ k = s := fun h => (List.nodup_cons.mp hnd).1 (h ▸ hks)
      have ih2 := ih (List.nodup_cons.mp hnd).2 hks
      cases hfk : f k with
      | none => exact ih2
      | some w =>
        have hwk : w.market.short_name = k := hshort k w hfk
        rw [List.filter_cons, if_neg (by simp [hwk, hkne])]
        exact ih2

/-- Claim C6: for every market (identified by its short name) present in at
least one day's MarketResult list, compute_windows emits exactly one window;
it is anchored on the earliest day the market appears (trigger_day is that
day, storm_date = scan_date + (trigger_day - 1)), the default offsets give
window_start = storm_date + 14 and window_end = storm_date + 28, and
highest_risk is the maximum over all days the market appears in the scan. -/
theorem compute_windows_unique_anchor :
    ∀ (mrs : List (Nat × List MarketResult)) (scan : Int) (s : String),
      s ∈ (marketDayPairs mrs).map (fun p => p.2.market.short_name) →
      ((((compute_windows mrs scan).filter
          (fun w => decide (w.market.short_name = s))).length = 1) ∧
       (∀ w ∈ compute_windows mrs scan, w.market.short_name = s →
         (w.trigger_day ∈ ((marketDayPairs mrs).filter
             (fun p => decide (p.2.market.short_name = s))).map Prod.fst ∧
          (∀ d ∈ ((marketDayPairs mrs).filter
             (fun p => decide (p.2.market.short_name = s))).map Prod.fst,
            w.trigger_day ≤ d) ∧
          w.storm_date = scan + ((w.trigger_day : Int) - 1) ∧
          w.window_start = w.storm_date + 14 ∧
          w.window_end = w.storm_date + 28 ∧
          w.highest_risk ∈ ((marketDayPairs mrs).filter
             (fun p => decide (p.2.market.short_name = s))).map
               (fun p => p.2.highest_risk) ∧
          (∀ r ∈ ((marketDayPairs mrs).filter
             (fun p => decide (p.2.market.short_name = s))).map
               (fun p => p.2.highest_risk),
            r ≤ w.highest_risk)))) := by
  intro mrs scan s hs
  have hsomeS : (windowFor (marketDayPairs mrs) scan s).isSome = true := by
    obtain ⟨p, hp, hps⟩ := List.mem_map.mp hs
    have hflt : p ∈ (marketDayPairs mrs).filter
        (fun p => decide (p.2.market.short_name = s)) :=
      List.mem_filter.mpr ⟨hp, by simp [hps]⟩
    have hne : (marketDayPairs mrs).filter
        (fun p => decide (p.2.market.short_name = s)) ≠ [] := by
      intro h
      rw [h] at hflt
      exact absurd hflt (List.not_mem_nil p)
    cases hwf : windowFor (marketDayPairs mrs) scan s with
    | none => exact absurd (windowFor_none_iff.mp hwf) hne
    | some w0 => rfl
  constructor
  · unfold compute_windows
    have hperm := sortWith_perm windowLe
      (((marketDayPairs mrs).map (fun p => p.2.market.short_name)).dedup.filterMap
        (windowFor (marketDayPairs mrs) scan))
    rw [(hperm.filter _).length_eq]
    exact filter_filterMap_length_one (List.nodup_dedup _)
      (List.mem_dedup.mpr hs) (fun k w hk => windowFor_short_name hk) hsomeS
  · intro w hw hws
    unfold compute_windows at hw
    rw [mem_sortWith] at hw
    obtain ⟨k, _, hfk⟩ := List.mem_filterMap.mp hw
    have hks : k = s := by rw [← windowFor_short_name hfk, hws]
    subst hks
    obtain ⟨fd, fm, tl, hsort, hwdef⟩ := windowFor_eq_some hfk
    have hperm2 := sortWith_perm dayLe
      ((marketDayPairs mrs).filter (fun p => decide (p.2.market.short_name = k)))
    rw [hsort] at hperm2
    subst hwdef
    refine ⟨?_, ?_, rfl, rfl, rfl, ?_, ?_⟩
    · show fd ∈ _
      have : (fd, fm) ∈ (marketDayPairs mrs).filter
          (fun p => decide (p.2.market.short_name = k)) :=
        hperm2.mem_iff.mp (List.mem_cons_self _ tl)
      exact List.mem_map.mpr ⟨(fd, fm), this, rfl⟩
    · intro d hd
      obtain ⟨p, hp, hpd⟩ := List.mem_map.mp hd
      have hle := sortWith_head_le dayLe_trans dayLe_total hsort p hp
      show fd ≤ d
      rw [← hpd]
      exact of_decide_eq_true hle
    · show maxNat _ ∈ _
      have hmem := maxNat_mem
        (l := ((fd, fm) :: tl).map (fun p => p.2.highest_risk)) (by simp)
      have hmap := hperm2.map (fun p => p.2.highest_risk)
      exact hmap.mem_iff.mp hmem
    · intro r hr
      have hmap := hperm2.map (fun p => p.2.highest_risk)
      exact maxNat_le _ r (hmap.mem_iff.mpr hr)

/-- Witness for claim C6: DFW appears on days 1 and 3; exactly one window is
emitted and it is anchored on day 1. -/
theorem compute_windows_unique_anchor_witness :
    ((compute_windows demoMRs 100).filter
      (fun w => decide (w.market.short_name = "DFW"))).length = 1 :=
  (compute_windows_unique_anchor demoMRs 100 "DFW" (by decide)).1

end WeatherChaser
